import Mathlib

/-!
# Verification of the versioned symmetric-encryption subsystem

Shallow embedding of the symmetric envelope format of the repository:
`SymmetricKeyDeriver`, `AesCbcFacade`, `AeadFacade`, `SymmetricCipherFacade`
and the legacy `aesEncrypt` entry point.

Byte sequences are modelled as `List Nat` (each element a byte value).
The cryptographic primitives named out of scope by the specification
(AES-CBC block transforms, SHA-256, SHA-512, HMAC-SHA-256, HKDF) are
collaborators: they are modelled as fields of a `CryptoPrimitives` record,
and theorems take their standard contracts (output lengths, CBC inversion)
as hypotheses.  A concrete executable instantiation `toyPrims` is provided
so that every statement can be checked on explicit inputs.
-/

/-- Error taxonomy of the subsystem (spec section 7).  The source raises
`CryptoError` / `TutaDbException` with messages; here each raise site gets
the structured error the specification assigns to it. -/
inductive CryptoErr where
  | invalidKeyLength
  | incompatibleKeyVersion
  | invalidIvLength
  | invalidBlockLength
  | authenticationFailed
  | authenticationRequired
  | decryptionFailed
  | notEnabled
  | unexpectedCipherVersion
  | macRequired
  | nullValue
  deriving DecidableEq, Repr

/-- A cipher version, a closed enumerated tag (spec section 3). -/
inductive SymmetricCipherVersion where
  | UnusedReservedUnauthenticated
  | AesCbcThenHmac
  | Aead
  deriving DecidableEq, Repr

/-- Modelled from the spec: the `SymmetricCipherVersion` wire encoding module is
not under src/ (only its callers are).  Spec section 3 fixes the one-byte wire
values `UnusedReservedUnauthenticated = 0`, `AesCbcThenHmac = 1`, `Aead = 2`. -/
def symmetricCipherVersionValue : SymmetricCipherVersion → Nat
  | .UnusedReservedUnauthenticated => 0
  | .AesCbcThenHmac => 1
  | .Aead => 2

/-- The one-byte encoding of a cipher version (`asBytes` /
`symmetricCipherVersionToUint8Array` in the source). -/
def symmetricCipherVersionToUint8Array (v : SymmetricCipherVersion) : List Nat :=
  [symmetricCipherVersionValue v]

/-- Modelled from the spec: `SymmetricCipherVersion.getFromCiphertext` is not
under src/ (only its caller `SymmetricCipherFacade.getCipherVersion` is).
Spec section 4.6: read the leading byte; if it matches a known version tag,
use it; absence of a recognized version byte means
`UnusedReservedUnauthenticated`. -/
def SymmetricCipherVersion.getFromCiphertext (cipherText : List Nat) : SymmetricCipherVersion :=
  match cipherText.head? with
  | some 1 => .AesCbcThenHmac
  | some 2 => .Aead
  | _ => .UnusedReservedUnauthenticated

/-- AES key length classification. -/
inductive AesKeyLength where
  | Aes128
  | Aes256
  deriving DecidableEq, Repr

def getKeyLengthAsBytes : AesKeyLength → Nat
  | .Aes128 => 16
  | .Aes256 => 32

/-- `getAndVerifyAesKeyLength` (AesKeyLength.ts): classifies a key by its byte
length, 16 bytes being 128 bit and 32 bytes being 256 bit, and fails for any
other length.  (The source measures `key.length * 4 * 8` on the word array;
under the byte view of a key this is exactly the byte length times 8.) -/
def getAndVerifyAesKeyLength (key : List Nat) : Except CryptoErr AesKeyLength :=
  if key.length = 16 then .ok .Aes128
  else if key.length = 32 then .ok .Aes256
  else .error .invalidKeyLength

/-- `uint8ArrayToKey` (SymmetricCipherUtils.ts): converts bytes to a key and
re-validates the length. -/
def uint8ArrayToKey (array : List Nat) : Except CryptoErr (List Nat) :=
  match getAndVerifyAesKeyLength array with
  | .ok _ => .ok array
  | .error e => .error e

/-- `FIXED_IV` (SymmetricCipherUtils.ts): sixteen bytes of `0x88`. -/
def FIXED_IV : List Nat := List.replicate 16 0x88

/-- The external cryptographic primitives (spec sections 1 and 6): AES-CBC,
the hash functions, HMAC-SHA-256 and HKDF are trusted collaborators. -/
structure CryptoPrimitives where
  aesCbcEncrypt : List Nat → List Nat → List Nat → Bool → List Nat
  aesCbcDecrypt : List Nat → List Nat → List Nat → Bool → Except CryptoErr (List Nat)
  sha256 : List Nat → List Nat
  sha512 : List Nat → List Nat
  hmacSha256 : List Nat → List Nat → List Nat
  hkdf : Option (List Nat) → List Nat → List Nat → Nat → List Nat

/-- A concrete executable instantiation of the primitives, used to evaluate
the statements on explicit inputs.  CBC is instantiated by the identity
transform (which satisfies the inversion contract) and HMAC by a length-32
checksum. -/
def toyPrims : CryptoPrimitives where
  aesCbcEncrypt := fun _ _ plainText _ => plainText
  aesCbcDecrypt := fun _ _ cipherText _ => .ok cipherText
  sha256 := fun _ => List.replicate 32 0
  sha512 := fun _ => List.replicate 64 0
  hmacSha256 := fun _ m => List.replicate 31 0 ++ [m.foldl (fun a b => (a + b) % 256) 0]
  hkdf := fun _ _ _ n => List.replicate n 0

/-- Derived sub-keys (SymmetricKeyDeriver.ts): an encryption key and an
optional authentication key. -/
structure SubKeys where
  encryptionKey : List Nat
  authenticationKey : Option (List Nat)
  deriving DecidableEq, Repr

deriving instance DecidableEq for Except

/-- `AEAD_KEY_DERIVATION_INFO` (SymmetricKeyDeriver.ts). -/
def AEAD_KEY_DERIVATION_INFO : String := "AEAD key splitting"

/-- ECMAScript semantics of `Uint8Array.from(s)` for a string `s`: the string
iterates into single-character strings, and storing each into the typed array
applies `ToNumber` followed by `ToUint8`.  A digit character parses to its
value, whitespace to `0`, and every other character to `NaN`, which `ToUint8`
maps to `0`. -/
def jsNumberOfChar (c : Char) : Nat :=
  if c.isDigit then c.toNat - 48 else 0

def jsUint8ArrayFromString (s : String) : List Nat :=
  s.data.map jsNumberOfChar

/-- The ASCII bytes of a string (what `String.getBytes` yields in the parallel
Java implementation, and what the spec words `ASCII("AEAD key splitting")`
denote). -/
def asciiBytes (s : String) : List Nat :=
  s.data.map Char.toNat

/-- The HKDF info bytes actually passed by the TypeScript
`SymmetricKeyDeriver.deriveSubKeys` in the `Aead` branch:
`concat(Uint8Array.from(AEAD_KEY_DERIVATION_INFO), symmetricCipherVersionToUint8Array(Aead))`. -/
def aeadDerivationInfo : List Nat :=
  jsUint8ArrayFromString AEAD_KEY_DERIVATION_INFO ++
    symmetricCipherVersionToUint8Array .Aead

/-- `SymmetricKeyDeriver.deriveSubKeys` (SymmetricKeyDeriver.ts), transcribed
branch by branch.  `subarray(a, b)` on a typed array is `(List.drop a).take (b - a)`
and `subarray(a, length)` is `List.drop a`. -/
def SymmetricKeyDeriver.deriveSubKeys (P : CryptoPrimitives) (key : List Nat)
    (symmetricCipherVersion : SymmetricCipherVersion) : Except CryptoErr SubKeys :=
  match getAndVerifyAesKeyLength key with
  | .error e => .error e
  | .ok keyLength =>
    match symmetricCipherVersion with
    | .UnusedReservedUnauthenticated =>
      if keyLength ≠ AesKeyLength.Aes128 then .error .incompatibleKeyVersion
      else .ok ⟨key, none⟩
    | .AesCbcThenHmac =>
      let hashedKey : List Nat :=
        match keyLength with
        | .Aes128 => P.sha256 key
        | .Aes256 => P.sha512 key
      match uint8ArrayToKey (hashedKey.take (getKeyLengthAsBytes keyLength)) with
      | .error e => .error e
      | .ok encryptionKey =>
        match uint8ArrayToKey (hashedKey.drop (getKeyLengthAsBytes keyLength)) with
        | .error e => .error e
        | .ok authenticationKey => .ok ⟨encryptionKey, some authenticationKey⟩
    | .Aead =>
      let derivedKeys := P.hkdf none key aeadDerivationInfo 64
      match uint8ArrayToKey (derivedKeys.take 32) with
      | .error e => .error e
      | .ok encryptionKey =>
        match uint8ArrayToKey ((derivedKeys.drop 32).take 32) with
        | .error e => .error e
        | .ok authenticationKey => .ok ⟨encryptionKey, some authenticationKey⟩

/-- `assertNotNull`: unwraps an option, failing on `null`. -/
def assertNotNull : Option (List Nat) → Except CryptoErr (List Nat)
  | some a => .ok a
  | none => .error .nullValue

/-- The accumulated difference of two byte sequences, combined via XOR and OR
so that every byte is inspected (no short-circuit). -/
def constantTimeDiff (a b : List Nat) : Nat :=
  (List.zipWith (fun x y => Nat.xor x y) a b).foldl
    (fun acc d => acc + d) (Nat.xor a.length b.length)

/-- Modelled from the spec: the Hmac module (`verifyHmacSha256`) is not under
src/ (only its callers are).  Spec sections 4.4 and 9: recompute
HMAC-SHA-256 over the message and compare against the provided tag with a
constant-time (non-short-circuiting) byte comparison, failing with
`AuthenticationFailed` on mismatch. -/
def verifyHmacSha256 (P : CryptoPrimitives) (key message tag : List Nat) :
    Except CryptoErr Unit :=
  if constantTimeDiff (P.hmacSha256 key message) tag = 0 then .ok ()
  else .error .authenticationFailed

/-- `AesCbcFacade.encrypt` (SymmetricCipherUtilsTest.ts, TypeScript version,
lines 159-190), transcribed: derive sub-keys, CBC-encrypt, optionally prepend
the IV to form the unauthenticated region, and for `AesCbcThenHmac` prepend
the version byte and append the HMAC-SHA-256 tag over the unauthenticated
region only. -/
def AesCbcFacade.encrypt (P : CryptoPrimitives) (key plainText : List Nat)
    (hasRandomIvToPrepend : Bool) (iv : List Nat) (padding : Bool)
    (cipherVersion : SymmetricCipherVersion) : Except CryptoErr (List Nat) :=
  match SymmetricKeyDeriver.deriveSubKeys P key cipherVersion with
  | .error e => .error e
  | .ok subKeys =>
    let cipherText := P.aesCbcEncrypt subKeys.encryptionKey iv plainText padding
    let unauthenticatedCiphertext :=
      if hasRandomIvToPrepend then iv ++ cipherText else cipherText
    match cipherVersion with
    | .UnusedReservedUnauthenticated => .ok unauthenticatedCiphertext
    | .AesCbcThenHmac =>
      match assertNotNull subKeys.authenticationKey with
      | .error e => .error e
      | .ok authenticationKey =>
        let authenticationTag := P.hmacSha256 authenticationKey unauthenticatedCiphertext
        .ok (symmetricCipherVersionToUint8Array .AesCbcThenHmac ++
              unauthenticatedCiphertext ++ authenticationTag)
    | .Aead => .error .unexpectedCipherVersion

/-- `AesCbcFacade.decrypt` (SymmetricCipherUtilsTest.ts, TypeScript version,
lines 195-238), transcribed: derive sub-keys; for `AesCbcThenHmac` slice off
the leading version byte and the trailing 32-byte tag, and verify the HMAC
over the body before anything else; then split off the IV (or use the fixed
IV) and CBC-decrypt.  `subarray(1, length - 32)` is
`(List.drop 1).take (length - 33)` (clamped at zero exactly as the
typed-array view clamps). -/
def AesCbcFacade.decrypt (P : CryptoPrimitives) (key cipherText : List Nat)
    (randomIv padding : Bool) (cipherVersion : SymmetricCipherVersion) :
    Except CryptoErr (List Nat) :=
  match SymmetricKeyDeriver.deriveSubKeys P key cipherVersion with
  | .error e => .error e
  | .ok subKeys =>
    let step : Except CryptoErr (List Nat) :=
      match cipherVersion with
      | .UnusedReservedUnauthenticated => .ok cipherText
      | .AesCbcThenHmac =>
        match assertNotNull subKeys.authenticationKey with
        | .error e => .error e
        | .ok authenticationKey =>
          let cipherTextWithoutMacAndVersionByte :=
            (cipherText.drop 1).take (cipherText.length - 32 - 1)
          let providedMacBytes := cipherText.drop (cipherText.length - 32)
          match verifyHmacSha256 P authenticationKey
              cipherTextWithoutMacAndVersionByte providedMacBytes with
          | .error e => .error e
          | .ok _ => .ok cipherTextWithoutMacAndVersionByte
      | .Aead => .error .unexpectedCipherVersion
    match step with
    | .error e => .error e
    | .ok cipherTextWithoutMacAndVersionByte =>
      let iv := if randomIv then cipherTextWithoutMacAndVersionByte.take 16 else FIXED_IV
      let aesCbcCiphertext :=
        if randomIv then cipherTextWithoutMacAndVersionByte.drop 16
        else cipherTextWithoutMacAndVersionByte
      P.aesCbcDecrypt subKeys.encryptionKey iv aesCbcCiphertext padding

/-- `AeadFacade.encrypt` (AeadFacade.ts, lines 38-58), transcribed: derive the
`Aead` sub-keys, CBC-encrypt, form the authenticated region
`versionByte ++ iv ++ ciphertext`, and append the HMAC-SHA-256 tag computed
over that region concatenated with the associated data. -/
def AeadFacade.encrypt (P : CryptoPrimitives) (key plainText iv : List Nat)
    (padding : Bool) (associatedData : List Nat) : Except CryptoErr (List Nat) :=
  match SymmetricKeyDeriver.deriveSubKeys P key .Aead with
  | .error e => .error e
  | .ok subKeys =>
    match assertNotNull subKeys.authenticationKey with
    | .error e => .error e
    | .ok authenticationKey =>
      let aesCbcCiphertext := P.aesCbcEncrypt subKeys.encryptionKey iv plainText padding
      let unauthenticatedData :=
        symmetricCipherVersionToUint8Array .Aead ++ iv ++ aesCbcCiphertext
      let tag := P.hmacSha256 authenticationKey (unauthenticatedData ++ associatedData)
      .ok (unauthenticatedData ++ tag)

/-- `AeadFacade.decrypt` (AeadFacade.ts, lines 60-83), transcribed: derive the
`Aead` sub-keys, split off the trailing 32-byte tag, verify the HMAC over the
remainder concatenated with the associated data, then take bytes 1..17 of the
remainder as the IV and everything after byte 17 as the CBC ciphertext, and
CBC-decrypt.  (The source reads the regions with `Arrays.copyOfRange` and
never compares the leading byte against the `Aead` tag value.) -/
def AeadFacade.decrypt (P : CryptoPrimitives) (key cipherText : List Nat)
    (padding : Bool) (associatedData : List Nat) : Except CryptoErr (List Nat) :=
  match SymmetricKeyDeriver.deriveSubKeys P key .Aead with
  | .error e => .error e
  | .ok subKeys =>
    match assertNotNull subKeys.authenticationKey with
    | .error e => .error e
    | .ok authenticationKey =>
      let cipherTextWithoutMac := cipherText.take (cipherText.length - 32)
      let authenticationTag := cipherText.drop (cipherText.length - 32)
      match verifyHmacSha256 P authenticationKey
          (cipherTextWithoutMac ++ associatedData) authenticationTag with
      | .error e => .error e
      | .ok _ =>
        let iv := (cipherTextWithoutMac.drop 1).take 16
        let aesCbcCiphertext := cipherTextWithoutMac.drop 17
        P.aesCbcDecrypt subKeys.encryptionKey iv aesCbcCiphertext padding

/-- The five-argument private `SymmetricCipherFacade.encrypt` (part_000,
lines 203-226): choose the IV (the caller-supplied random bytes, or the fixed
IV), then dispatch on the cipher version; the `Aead` path is administratively
disabled.  The randomness source is made explicit as the `randomIvBytes`
argument. -/
def SymmetricCipherFacade.encryptWithIvChoice (P : CryptoPrimitives)
    (randomIvBytes : List Nat) (key plainText : List Nat)
    (hasRandomIv padding : Bool) (cipherVersion : SymmetricCipherVersion) :
    Except CryptoErr (List Nat) :=
  let iv := if hasRandomIv then randomIvBytes else FIXED_IV
  match cipherVersion with
  | .UnusedReservedUnauthenticated =>
    AesCbcFacade.encrypt P key plainText hasRandomIv iv padding cipherVersion
  | .AesCbcThenHmac =>
    AesCbcFacade.encrypt P key plainText hasRandomIv iv padding cipherVersion
  | .Aead => .error .notEnabled

/-- The four-argument private `SymmetricCipherFacade.encrypt` overload
(part_000, lines 199-201): defaults `hasRandomIv` to `true`. -/
def SymmetricCipherFacade.encryptDefaultIv (P : CryptoPrimitives)
    (randomIvBytes : List Nat) (key plainText : List Nat) (padding : Bool)
    (cipherVersion : SymmetricCipherVersion) : Except CryptoErr (List Nat) :=
  SymmetricCipherFacade.encryptWithIvChoice P randomIvBytes key plainText true
    padding cipherVersion

/-- `SymmetricCipherFacade.encryptKey` (part_000, lines 141-147): dispatch on
the wrapping key length; the 128-bit branch calls the five-argument `encrypt`
with `hasRandomIv = false` and no padding, the 256-bit branch calls the
four-argument overload with no padding. -/
def SymmetricCipherFacade.encryptKey (P : CryptoPrimitives)
    (randomIvBytes : List Nat) (key keyToEncrypt : List Nat) :
    Except CryptoErr (List Nat) :=
  match getAndVerifyAesKeyLength key with
  | .error e => .error e
  | .ok .Aes128 =>
    SymmetricCipherFacade.encryptWithIvChoice P randomIvBytes key keyToEncrypt
      false false .UnusedReservedUnauthenticated
  | .ok .Aes256 =>
    SymmetricCipherFacade.encryptDefaultIv P randomIvBytes key keyToEncrypt
      false .AesCbcThenHmac

/-- `SymmetricCipherFacade.getCipherVersion` (part_000, lines 245-253):
detect the version from the ciphertext and fail when it is
`UnusedReservedUnauthenticated` while the key is not 128-bit. -/
def SymmetricCipherFacade.getCipherVersion (key cipherText : List Nat) :
    Except CryptoErr SymmetricCipherVersion :=
  let cipherVersion := SymmetricCipherVersion.getFromCiphertext cipherText
  match getAndVerifyAesKeyLength key with
  | .error e => .error e
  | .ok keyLength =>
    if cipherVersion = SymmetricCipherVersion.UnusedReservedUnauthenticated ∧
        keyLength ≠ AesKeyLength.Aes128 then
      .error .authenticationRequired
    else .ok cipherVersion

/-- The four-argument private `SymmetricCipherFacade.decrypt` (part_000,
lines 232-243): detect the cipher version (failing for unauthenticated data
under a non-128-bit key), then dispatch; the `Aead` path is disabled. -/
def SymmetricCipherFacade.decryptWithIvChoice (P : CryptoPrimitives)
    (key cipherText : List Nat) (randomIv padding : Bool) :
    Except CryptoErr (List Nat) :=
  match SymmetricCipherFacade.getCipherVersion key cipherText with
  | .error e => .error e
  | .ok .UnusedReservedUnauthenticated =>
    AesCbcFacade.decrypt P key cipherText randomIv padding .UnusedReservedUnauthenticated
  | .ok .AesCbcThenHmac =>
    AesCbcFacade.decrypt P key cipherText randomIv padding .AesCbcThenHmac
  | .ok .Aead => .error .notEnabled

/-- The three-argument private `SymmetricCipherFacade.decrypt` overload
(part_000, lines 228-230): defaults `randomIv` to `true`. -/
def SymmetricCipherFacade.decryptDefaultIv (P : CryptoPrimitives)
    (key cipherText : List Nat) (padding : Bool) : Except CryptoErr (List Nat) :=
  SymmetricCipherFacade.decryptWithIvChoice P key cipherText true padding

/-- `SymmetricCipherFacade.decryptKey` (part_000, lines 168-173): the 128-bit
branch decrypts with `randomIv = false` and no padding, the 256-bit branch
uses the three-argument overload with no padding. -/
def SymmetricCipherFacade.decryptKey (P : CryptoPrimitives)
    (key bytes : List Nat) : Except CryptoErr (List Nat) :=
  match getAndVerifyAesKeyLength key with
  | .error e => .error e
  | .ok .Aes128 => SymmetricCipherFacade.decryptWithIvChoice P key bytes false false
  | .ok .Aes256 => SymmetricCipherFacade.decryptDefaultIv P key bytes false

/-- Modelled from the spec: `getAesSubKeys` (legacy sub-key derivation used by
`aesEncrypt` in Aes.ts) is not under src/.  Per the spec (section 4.2) the
legacy derivation with a MAC is the `AesCbcThenHmac` hash split, and without
a MAC the master key is used directly. -/
def getAesSubKeys (P : CryptoPrimitives) (key : List Nat) (mac : Bool) :
    Except CryptoErr SubKeys :=
  if mac then SymmetricKeyDeriver.deriveSubKeys P key .AesCbcThenHmac
  else .ok ⟨key, none⟩

/-- `MAC_ENABLED_PREFIX`: the one-byte marker prepended to authenticated
legacy envelopes, equal to the `AesCbcThenHmac` wire value. -/
def MAC_ENABLED_BYTE : Nat := 1

/-- `aesEncrypt` (Aes.ts, lines 109-130), transcribed: validate the key
length and the IV length, refuse a 256-bit key without a MAC, then
CBC-encrypt, prepend the IV, and when the MAC is enabled prepend the marker
byte and append the HMAC over `iv ++ ciphertext`. -/
def aesEncrypt (P : CryptoPrimitives) (key bytes iv : List Nat)
    (usePadding useMac : Bool) : Except CryptoErr (List Nat) :=
  match getAndVerifyAesKeyLength key with
  | .error e => .error e
  | .ok keyLength =>
    if iv.length ≠ 16 then .error .invalidIvLength
    else if useMac = false ∧ keyLength = AesKeyLength.Aes256 then .error .macRequired
    else
      match getAesSubKeys P key useMac with
      | .error e => .error e
      | .ok subKeys =>
        let encrypted := P.aesCbcEncrypt subKeys.encryptionKey iv bytes usePadding
        let data := iv ++ encrypted
        if useMac then
          match assertNotNull subKeys.authenticationKey with
          | .error e => .error e
          | .ok mKey => .ok ([MAC_ENABLED_BYTE] ++ data ++ P.hmacSha256 mKey data)
        else .ok data

/-! ## Helper lemmas -/

theorem foldlAddEq (l : List Nat) (i : Nat) :
    l.foldl (fun acc d => acc + d) i = i + l.sum := by
  induction l generalizing i with
  | nil => simp
  | cons a t ih => simp [List.foldl_cons, ih, List.sum_cons]; omega

theorem zipWithXorSumZeroIff (a : List Nat) : ∀ b : List Nat,
    ((List.zipWith (fun x y => Nat.xor x y) a b).sum = 0 ∧ a.length = b.length) ↔ a = b := by
  induction a with
  | nil => intro b; cases b <;> simp
  | cons x xs ih =>
    intro b
    cases b with
    | nil => simp
    | cons y ys =>
      simp only [List.zipWith_cons_cons, List.sum_cons, List.length_cons, List.cons.injEq]
      constructor
      · rintro ⟨hsum, hlen⟩
        have hx : Nat.xor x y = 0 ∧ (List.zipWith (fun u v => Nat.xor u v) xs ys).sum = 0 := by
          omega
        exact ⟨Nat.xor_eq_zero.mp hx.1, (ih ys).mp ⟨hx.2, by omega⟩⟩
      · rintro ⟨rfl, rfl⟩
        have h := (ih xs).mpr rfl
        have hx : Nat.xor x x = 0 := Nat.xor_self x
        refine ⟨?_, rfl⟩
        omega

theorem constantTimeDiffEqZeroIff (a b : List Nat) : constantTimeDiff a b = 0 ↔ a = b := by
  unfold constantTimeDiff
  rw [foldlAddEq]
  constructor
  · intro h
    have hx : Nat.xor a.length b.length = 0 ∧
        (List.zipWith (fun u v => Nat.xor u v) a b).sum = 0 := by omega
    exact (zipWithXorSumZeroIff a b).mp ⟨hx.2, Nat.xor_eq_zero.mp hx.1⟩
  · intro h
    obtain ⟨h1, h2⟩ := (zipWithXorSumZeroIff a b).mpr h
    have hx : Nat.xor a.length b.length = 0 := Nat.xor_eq_zero.mpr h2
    omega

theorem verifyHmacOk (P : CryptoPrimitives) (k m t : List Nat)
    (h : P.hmacSha256 k m = t) : verifyHmacSha256 P k m t = .ok () := by
  unfold verifyHmacSha256
  rw [if_pos ((constantTimeDiffEqZeroIff _ _).mpr h)]

theorem verifyHmacMismatch (P : CryptoPrimitives) (k m t : List Nat)
    (h : P.hmacSha256 k m ≠ t) :
    verifyHmacSha256 P k m t = .error .authenticationFailed := by
  unfold verifyHmacSha256
  rw [if_neg (fun hc => h ((constantTimeDiffEqZeroIff _ _).mp hc))]

theorem deriveUnused128 (P : CryptoPrimitives) (key : List Nat) (hkey : key.length = 16) :
    SymmetricKeyDeriver.deriveSubKeys P key .UnusedReservedUnauthenticated = .ok ⟨key, none⟩ := by
  unfold SymmetricKeyDeriver.deriveSubKeys
  simp [getAndVerifyAesKeyLength, hkey]

theorem deriveCbcHmac128 (P : CryptoPrimitives) (key : List Nat)
    (hkey : key.length = 16) (hsha : (P.sha256 key).length = 32) :
    SymmetricKeyDeriver.deriveSubKeys P key .AesCbcThenHmac =
      .ok ⟨(P.sha256 key).take 16, some ((P.sha256 key).drop 16)⟩ := by
  unfold SymmetricKeyDeriver.deriveSubKeys
  simp [getAndVerifyAesKeyLength, hkey, uint8ArrayToKey, getKeyLengthAsBytes,
    List.length_take, List.length_drop, hsha]

theorem deriveCbcHmac256 (P : CryptoPrimitives) (key : List Nat)
    (hkey : key.length = 32) (hsha : (P.sha512 key).length = 64) :
    SymmetricKeyDeriver.deriveSubKeys P key .AesCbcThenHmac =
      .ok ⟨(P.sha512 key).take 32, some ((P.sha512 key).drop 32)⟩ := by
  unfold SymmetricKeyDeriver.deriveSubKeys
  simp [getAndVerifyAesKeyLength, hkey, uint8ArrayToKey, getKeyLengthAsBytes,
    List.length_take, List.length_drop, hsha]

theorem deriveAead (P : CryptoPrimitives) (key : List Nat)
    (hkey : key.length = 16 ∨ key.length = 32)
    (hhkdf : (P.hkdf none key aeadDerivationInfo 64).length = 64) :
    SymmetricKeyDeriver.deriveSubKeys P key .Aead =
      .ok ⟨(P.hkdf none key aeadDerivationInfo 64).take 32,
           some (((P.hkdf none key aeadDerivationInfo 64).drop 32).take 32)⟩ := by
  unfold SymmetricKeyDeriver.deriveSubKeys
  rcases hkey with h | h <;>
    simp [getAndVerifyAesKeyLength, h, uint8ArrayToKey,
      List.length_take, List.length_drop, hhkdf]

theorem encryptUnusedEq (P : CryptoPrimitives) (key plainText iv : List Nat)
    (prepend padding : Bool) (hkey : key.length = 16) :
    AesCbcFacade.encrypt P key plainText prepend iv padding .UnusedReservedUnauthenticated =
      .ok (if prepend then iv ++ P.aesCbcEncrypt key iv plainText padding
           else P.aesCbcEncrypt key iv plainText padding) := by
  unfold AesCbcFacade.encrypt
  rw [deriveUnused128 P key hkey]

theorem decryptUnusedEq (P : CryptoPrimitives) (key c : List Nat)
    (randomIv padding : Bool) (hkey : key.length = 16) :
    AesCbcFacade.decrypt P key c randomIv padding .UnusedReservedUnauthenticated =
      P.aesCbcDecrypt key (if randomIv then c.take 16 else FIXED_IV)
        (if randomIv then c.drop 16 else c) padding := by
  unfold AesCbcFacade.decrypt
  rw [deriveUnused128 P key hkey]

theorem encryptCbcHmacEq (P : CryptoPrimitives) (key plainText iv : List Nat)
    (prepend padding : Bool) (sk : SubKeys) (ak : List Nat)
    (hderive : SymmetricKeyDeriver.deriveSubKeys P key .AesCbcThenHmac = .ok sk)
    (hak : sk.authenticationKey = some ak) :
    AesCbcFacade.encrypt P key plainText prepend iv padding .AesCbcThenHmac =
      .ok ([1] ++
        (if prepend then iv ++ P.aesCbcEncrypt sk.encryptionKey iv plainText padding
         else P.aesCbcEncrypt sk.encryptionKey iv plainText padding) ++
        P.hmacSha256 ak
          (if prepend then iv ++ P.aesCbcEncrypt sk.encryptionKey iv plainText padding
           else P.aesCbcEncrypt sk.encryptionKey iv plainText padding)) := by
  unfold AesCbcFacade.encrypt
  rw [hderive]
  simp [hak, assertNotNull, symmetricCipherVersionToUint8Array, symmetricCipherVersionValue]

theorem decryptCbcHmacEq (P : CryptoPrimitives) (key u tag : List Nat)
    (randomIv padding : Bool) (sk : SubKeys) (ak : List Nat)
    (hderive : SymmetricKeyDeriver.deriveSubKeys P key .AesCbcThenHmac = .ok sk)
    (hak : sk.authenticationKey = some ak)
    (htaglen : tag.length = 32)
    (htag : P.hmacSha256 ak u = tag) :
    AesCbcFacade.decrypt P key ([1] ++ u ++ tag) randomIv padding .AesCbcThenHmac =
      P.aesCbcDecrypt sk.encryptionKey (if randomIv then u.take 16 else FIXED_IV)
        (if randomIv then u.drop 16 else u) padding := by
  have hlen : ([1] ++ u ++ tag : List Nat).length = 33 + u.length := by
    simp [htaglen]; omega
  have hbody : ((([1] : List Nat) ++ u ++ tag).drop 1).take
      (([1] ++ u ++ tag : List Nat).length - 32 - 1) = u := by
    rw [hlen]
    have h2 : 33 + u.length - 32 - 1 = u.length := by omega
    have h3 : (([1] : List Nat) ++ u ++ tag).drop 1 = u ++ tag := rfl
    rw [h2, h3, List.take_left]
  have hmacpart : (([1] : List Nat) ++ u ++ tag).drop
      (([1] ++ u ++ tag : List Nat).length - 32) = tag := by
    rw [hlen]
    have h1 : 33 + u.length - 32 = ([1] ++ u : List Nat).length := by simp; omega
    rw [h1, List.drop_left]
  unfold AesCbcFacade.decrypt
  rw [hderive]
  simp only [hak, assertNotNull]
  rw [hbody, hmacpart, verifyHmacOk P ak u tag htag]

theorem aeadEncryptEq (P : CryptoPrimitives) (key plainText iv ad : List Nat)
    (padding : Bool) (sk : SubKeys) (ak : List Nat)
    (hderive : SymmetricKeyDeriver.deriveSubKeys P key .Aead = .ok sk)
    (hak : sk.authenticationKey = some ak) :
    AeadFacade.encrypt P key plainText iv padding ad =
      .ok (([2] ++ iv ++ P.aesCbcEncrypt sk.encryptionKey iv plainText padding) ++
        P.hmacSha256 ak
          (([2] ++ iv ++ P.aesCbcEncrypt sk.encryptionKey iv plainText padding) ++ ad)) := by
  unfold AeadFacade.encrypt
  rw [hderive]
  simp [hak, assertNotNull, symmetricCipherVersionToUint8Array, symmetricCipherVersionValue]

theorem aeadDecryptEq (P : CryptoPrimitives) (key u tag ad : List Nat)
    (padding : Bool) (sk : SubKeys) (ak : List Nat)
    (hderive : SymmetricKeyDeriver.deriveSubKeys P key .Aead = .ok sk)
    (hak : sk.authenticationKey = some ak)
    (htaglen : tag.length = 32)
    (htag : P.hmacSha256 ak (u ++ ad) = tag) :
    AeadFacade.decrypt P key (u ++ tag) padding ad =
      P.aesCbcDecrypt sk.encryptionKey ((u.drop 1).take 16) (u.drop 17) padding := by
  have hlen : (u ++ tag).length = u.length + 32 := by simp [htaglen]
  have htake : (u ++ tag).take ((u ++ tag).length - 32) = u := by
    rw [hlen]
    have h2 : u.length + 32 - 32 = u.length := by omega
    rw [h2, List.take_left]
  have hdroptag : (u ++ tag).drop ((u ++ tag).length - 32) = tag := by
    rw [hlen]
    have h2 : u.length + 32 - 32 = u.length := by omega
    rw [h2, List.drop_left]
  unfold AeadFacade.decrypt
  rw [hderive]
  simp only [hak, assertNotNull]
  rw [htake, hdroptag, verifyHmacOk P ak (u ++ ad) tag htag]

theorem deriveUnused256 (P : CryptoPrimitives) (key : List Nat) (hkey : key.length = 32) :
    SymmetricKeyDeriver.deriveSubKeys P key .UnusedReservedUnauthenticated =
      .error .incompatibleKeyVersion := by
  unfold SymmetricKeyDeriver.deriveSubKeys
  simp [getAndVerifyAesKeyLength, hkey]

/-- C1: for every valid key (16 or 32 bytes), plaintext, and 16-byte IV, and
for each supported cipher version, decrypting the envelope produced by
encrypt with the same key (and, for AEAD, the same associated data) returns
exactly the original plaintext.  The external primitives obey their standard
contracts (hash/HMAC/HKDF output lengths, CBC inversion); the configuration
is the one in which the spec formula `decrypt(encrypt(key, plaintext, iv,
version)) == plaintext` is well-posed, namely the IV travelling inside the
envelope; and each version's round trip is conditioned on its encryption
succeeding (`UnusedReservedUnauthenticated` refuses non-128-bit keys). -/
theorem c1_round_trip (P : CryptoPrimitives) (key plainText iv ad : List Nat)
    (padding : Bool)
    (hkey : key.length = 16 ∨ key.length = 32)
    (hiv : iv.length = 16)
    (hsha256 : ∀ b, (P.sha256 b).length = 32)
    (hsha512 : ∀ b, (P.sha512 b).length = 64)
    (hhkdf : ∀ s ikm info n, (P.hkdf s ikm info n).length = n)
    (hmac32 : ∀ k m, (P.hmacSha256 k m).length = 32)
    (hinv : ∀ ek iv2 pt pad,
      P.aesCbcDecrypt ek iv2 (P.aesCbcEncrypt ek iv2 pt pad) pad = .ok pt) :
    (∀ c, AesCbcFacade.encrypt P key plainText true iv padding
        .UnusedReservedUnauthenticated = .ok c →
      AesCbcFacade.decrypt P key c true padding
        .UnusedReservedUnauthenticated = .ok plainText)
  ∧ (∀ c, AesCbcFacade.encrypt P key plainText true iv padding
        .AesCbcThenHmac = .ok c →
      AesCbcFacade.decrypt P key c true padding .AesCbcThenHmac = .ok plainText)
  ∧ (∀ c, AeadFacade.encrypt P key plainText iv padding ad = .ok c →
      AeadFacade.decrypt P key c padding ad = .ok plainText) := by
  refine ⟨?_, ?_, ?_⟩
  · intro c hc
    rcases hkey with h16 | h32
    · rw [encryptUnusedEq P key plainText iv true padding h16] at hc
      simp only [if_true, Except.ok.injEq] at hc
      subst hc
      rw [decryptUnusedEq P key _ true padding h16]
      simp only [if_true]
      rw [List.take_left' hiv, List.drop_left' hiv]
      exact hinv _ _ _ _
    · unfold AesCbcFacade.encrypt at hc
      rw [deriveUnused256 P key h32] at hc
      exact absurd hc (by simp)
  · intro c hc
    rcases hkey with h16 | h32
    · have hderive := deriveCbcHmac128 P key h16 (hsha256 key)
      rw [encryptCbcHmacEq P key plainText iv true padding _ _ hderive rfl] at hc
      simp only [if_true, Except.ok.injEq] at hc
      subst hc
      rw [decryptCbcHmacEq P key _ _ true padding _ _ hderive rfl
        (hmac32 _ _) rfl]
      simp only [if_true]
      rw [List.take_left' hiv, List.drop_left' hiv]
      exact hinv _ _ _ _
    · have hderive := deriveCbcHmac256 P key h32 (hsha512 key)
      rw [encryptCbcHmacEq P key plainText iv true padding _ _ hderive rfl] at hc
      simp only [if_true, Except.ok.injEq] at hc
      subst hc
      rw [decryptCbcHmacEq P key _ _ true padding _ _ hderive rfl
        (hmac32 _ _) rfl]
      simp only [if_true]
      rw [List.take_left' hiv, List.drop_left' hiv]
      exact hinv _ _ _ _
  · intro c hc
    have hderive := deriveAead P key hkey (hhkdf none key aeadDerivationInfo 64)
    rw [aeadEncryptEq P key plainText iv ad padding _ _ hderive rfl] at hc
    simp only [Except.ok.injEq] at hc
    subst hc
    rw [aeadDecryptEq P key _ _ ad padding _ _ hderive rfl (hmac32 _ _) rfl]
    have hd1 : (([2] ++ iv ++
        P.aesCbcEncrypt ((P.hkdf none key aeadDerivationInfo 64).take 32) iv
          plainText padding : List Nat).drop 1) =
        iv ++ P.aesCbcEncrypt ((P.hkdf none key aeadDerivationInfo 64).take 32) iv
          plainText padding := rfl
    have hd17 : (([2] ++ iv ++
        P.aesCbcEncrypt ((P.hkdf none key aeadDerivationInfo 64).take 32) iv
          plainText padding : List Nat).drop 17) =
        P.aesCbcEncrypt ((P.hkdf none key aeadDerivationInfo 64).take 32) iv
          plainText padding :=
      List.drop_left' (by simp [hiv])
    rw [hd1, hd17, List.take_left' hiv]
    exact hinv _ _ _ _

/-- C1 witness: the round trip evaluated at the all-zero 128-bit key,
plaintext `[5, 6, 7]`, IV of sixteen `2`-bytes, and the
`AesCbcThenHmac` version under the executable primitives. -/
theorem c1_round_trip_witness :
    AesCbcFacade.decrypt toyPrims (List.replicate 16 0)
      ([1] ++ (List.replicate 16 2 ++ [5, 6, 7]) ++ (List.replicate 31 0 ++ [50]))
      true true .AesCbcThenHmac = .ok [5, 6, 7] :=
  (c1_round_trip toyPrims (List.replicate 16 0) [5, 6, 7] (List.replicate 16 2) []
    true (Or.inl (by decide)) (by decide)
    (fun b => by simp [toyPrims]) (fun b => by simp [toyPrims])
    (fun s ikm info n => by simp [toyPrims]) (fun k m => by simp [toyPrims])
    (fun ek iv2 pt pad => rfl)).2.1 _ (by decide)

theorem deriveSubKeysUpdateDec (P : CryptoPrimitives)
    (dec : List Nat → List Nat → List Nat → Bool → Except CryptoErr (List Nat))
    (key : List Nat) (v : SymmetricCipherVersion) :
    SymmetricKeyDeriver.deriveSubKeys { P with aesCbcDecrypt := dec } key v =
      SymmetricKeyDeriver.deriveSubKeys P key v := rfl

/-- C2: in `AesCbcThenHmac` decryption the HMAC-SHA-256 tag over the body
(between the 1-byte version marker and the trailing 32 bytes) is recomputed
and compared (by the constant-time accumulating comparison `constantTimeDiff`)
against the provided tag, and on mismatch decryption fails with
`AuthenticationFailed` no matter how the block cipher would behave: the
conclusion holds for every possible `aesCbcDecrypt` primitive, so no
block-cipher decryption can be performed and no plaintext can be returned. -/
theorem c2_authenticate_then_decrypt (P : CryptoPrimitives) (key c : List Nat)
    (randomIv padding : Bool) (sk : SubKeys) (ak : List Nat)
    (hderive : SymmetricKeyDeriver.deriveSubKeys P key .AesCbcThenHmac = .ok sk)
    (hak : sk.authenticationKey = some ak)
    (hmismatch : P.hmacSha256 ak ((c.drop 1).take (c.length - 32 - 1)) ≠
      c.drop (c.length - 32)) :
    ∀ dec, AesCbcFacade.decrypt { P with aesCbcDecrypt := dec } key c randomIv
      padding .AesCbcThenHmac = .error .authenticationFailed := by
  intro dec
  unfold AesCbcFacade.decrypt
  rw [deriveSubKeysUpdateDec, hderive]
  simp only [hak, assertNotNull]
  rw [verifyHmacMismatch { P with aesCbcDecrypt := dec } ak
    ((c.drop 1).take (c.length - 32 - 1)) (c.drop (c.length - 32)) hmismatch]

/-- C2 witness: a concrete envelope whose trailing tag byte is wrong is
rejected with `AuthenticationFailed`, even under a block-cipher primitive
that would happily return a plaintext. -/
theorem c2_authenticate_then_decrypt_witness :
    AesCbcFacade.decrypt { toyPrims with aesCbcDecrypt := fun _ _ _ _ => .ok [] }
      (List.replicate 16 0)
      ([1] ++ (List.replicate 16 2 ++ [5, 6, 7]) ++ (List.replicate 31 0 ++ [51]))
      true true .AesCbcThenHmac = .error .authenticationFailed :=
  c2_authenticate_then_decrypt toyPrims (List.replicate 16 0) _ true true
    ⟨List.replicate 16 0, some (List.replicate 16 0)⟩ (List.replicate 16 0)
    (by decide) rfl (by decide) _

/-- C3: every `AesCbcThenHmac` encryption returns the 1-byte version tag,
then the unauthenticated region (IV prepended to the CBC ciphertext exactly
when `prependRandomIv` holds, otherwise the ciphertext alone), then a 32-byte
HMAC-SHA-256 tag computed over the unauthenticated region only — the version
byte is outside the authenticated region. -/
theorem c3_envelope_layout (P : CryptoPrimitives) (key plainText iv : List Nat)
    (prependRandomIv padding : Bool) (sk : SubKeys) (ak : List Nat)
    (hderive : SymmetricKeyDeriver.deriveSubKeys P key .AesCbcThenHmac = .ok sk)
    (hak : sk.authenticationKey = some ak)
    (hmac32 : ∀ k m, (P.hmacSha256 k m).length = 32) :
    AesCbcFacade.encrypt P key plainText prependRandomIv iv padding
        .AesCbcThenHmac =
      .ok ([1] ++
        (if prependRandomIv then
          iv ++ P.aesCbcEncrypt sk.encryptionKey iv plainText padding
         else P.aesCbcEncrypt sk.encryptionKey iv plainText padding) ++
        P.hmacSha256 ak
          (if prependRandomIv then
            iv ++ P.aesCbcEncrypt sk.encryptionKey iv plainText padding
           else P.aesCbcEncrypt sk.encryptionKey iv plainText padding))
    ∧ (P.hmacSha256 ak
        (if prependRandomIv then
          iv ++ P.aesCbcEncrypt sk.encryptionKey iv plainText padding
         else P.aesCbcEncrypt sk.encryptionKey iv plainText padding)).length = 32 :=
  ⟨encryptCbcHmacEq P key plainText iv prependRandomIv padding sk ak hderive hak,
   hmac32 _ _⟩

/-- C3 witness: the envelope layout evaluated at a concrete key, plaintext
and IV with the random IV prepended. -/
theorem c3_envelope_layout_witness :
    AesCbcFacade.encrypt toyPrims (List.replicate 16 0) [5, 6, 7] true
        (List.replicate 16 2) true .AesCbcThenHmac =
      .ok ([1] ++ (List.replicate 16 2 ++ [5, 6, 7]) ++
        toyPrims.hmacSha256 (List.replicate 16 0) (List.replicate 16 2 ++ [5, 6, 7]))
    ∧ (toyPrims.hmacSha256 (List.replicate 16 0)
        (List.replicate 16 2 ++ [5, 6, 7])).length = 32 :=
  c3_envelope_layout toyPrims (List.replicate 16 0) [5, 6, 7] (List.replicate 16 2)
    true true ⟨List.replicate 16 0, some (List.replicate 16 0)⟩ (List.replicate 16 0)
    (by decide) rfl (fun k m => by simp [toyPrims])

/-- C4: for every valid key, `deriveSubKeys` with version `AesCbcThenHmac`
hashes the raw key bytes with SHA-256 (16-byte key) or SHA-512 (32-byte key)
and returns the first `keyLength` bytes of the hash as the encryption key and
the second `keyLength` bytes as the authentication key; the two halves
reassemble the whole hash, so nothing is truncated. -/
theorem c4_subkey_split (P : CryptoPrimitives) (key : List Nat)
    (hsha256 : (P.sha256 key).length = 32)
    (hsha512 : (P.sha512 key).length = 64) :
    (key.length = 16 →
      SymmetricKeyDeriver.deriveSubKeys P key .AesCbcThenHmac =
        .ok ⟨(P.sha256 key).take 16, some ((P.sha256 key).drop 16)⟩
      ∧ (P.sha256 key).take 16 ++ (P.sha256 key).drop 16 = P.sha256 key
      ∧ ((P.sha256 key).drop 16).length = 16)
  ∧ (key.length = 32 →
      SymmetricKeyDeriver.deriveSubKeys P key .AesCbcThenHmac =
        .ok ⟨(P.sha512 key).take 32, some ((P.sha512 key).drop 32)⟩
      ∧ (P.sha512 key).take 32 ++ (P.sha512 key).drop 32 = P.sha512 key
      ∧ ((P.sha512 key).drop 32).length = 32) := by
  constructor
  · intro h16
    exact ⟨deriveCbcHmac128 P key h16 hsha256, List.take_append_drop _ _,
      by rw [List.length_drop, hsha256]⟩
  · intro h32
    exact ⟨deriveCbcHmac256 P key h32 hsha512, List.take_append_drop _ _,
      by rw [List.length_drop, hsha512]⟩

/-- C4 witness: the sub-key split evaluated at the all-zero 128-bit key. -/
theorem c4_subkey_split_witness :
    SymmetricKeyDeriver.deriveSubKeys toyPrims (List.replicate 16 0)
        .AesCbcThenHmac =
      .ok ⟨(toyPrims.sha256 (List.replicate 16 0)).take 16,
           some ((toyPrims.sha256 (List.replicate 16 0)).drop 16)⟩
    ∧ (toyPrims.sha256 (List.replicate 16 0)).take 16 ++
        (toyPrims.sha256 (List.replicate 16 0)).drop 16 =
        toyPrims.sha256 (List.replicate 16 0)
    ∧ ((toyPrims.sha256 (List.replicate 16 0)).drop 16).length = 16 :=
  (c4_subkey_split toyPrims (List.replicate 16 0)
    (by simp [toyPrims]) (by simp [toyPrims])).1 (by decide)

/-- C5: evaluation of the TypeScript `Aead` derivation branch.  Because
`Uint8Array.from` is applied to the info *string*, every character coerces to
the byte `0`, so the info bytes actually handed to HKDF are eighteen zero
bytes followed by the version byte — not the ASCII bytes of
`"AEAD key splitting"` that the code's own comment
(`HKDF (K, null, "AEAD key splitting"||VAEAD, 2*256)`), the parallel Java
implementation (`AEAD_KEY_DERIVATION_INFO.getBytes()`) and the claim
describe.  The third conjunct evaluates `deriveSubKeys` at a concrete key and
shows the faulty info value is what reaches HKDF. -/
theorem c5_aead_info_bytes_are_zero :
    aeadDerivationInfo = List.replicate 18 0 ++ [2]
  ∧ aeadDerivationInfo ≠ asciiBytes AEAD_KEY_DERIVATION_INFO ++ [2]
  ∧ SymmetricKeyDeriver.deriveSubKeys toyPrims (List.replicate 16 0) .Aead =
      .ok ⟨(toyPrims.hkdf none (List.replicate 16 0) aeadDerivationInfo 64).take 32,
        some (((toyPrims.hkdf none (List.replicate 16 0)
          aeadDerivationInfo 64).drop 32).take 32)⟩ := by
  refine ⟨by decide, by decide, by decide⟩

/-- C6 counterexample: with a 256-bit wrapping key, `encryptKey` does *not*
use the fixed IV: the produced envelope carries the caller-supplied random IV
bytes (sixteen `1`-bytes here, visible at positions 1..17), those bytes
differ from `FIXED_IV`, and the output changes when the randomness changes —
refuting the claim that `encryptKey` always uses the fixed IV and never a
random prepended IV. -/
theorem c6_counterexample :
    SymmetricCipherFacade.encryptKey toyPrims (List.replicate 16 1)
        (List.replicate 32 0) (List.replicate 16 5) =
      .ok ([1] ++ List.replicate 16 1 ++ List.replicate 16 5 ++
        (List.replicate 31 0 ++ [96]))
  ∧ List.replicate 16 1 ≠ FIXED_IV
  ∧ SymmetricCipherFacade.encryptKey toyPrims (List.replicate 16 1)
      (List.replicate 32 0) (List.replicate 16 5) ≠
    SymmetricCipherFacade.encryptKey toyPrims (List.replicate 16 7)
      (List.replicate 32 0) (List.replicate 16 5) := by
  refine ⟨by decide, by decide, by decide⟩

/-- C6 (amended): `encryptKey` and `decryptKey` always use no padding and
select the cipher version from the wrapping key's length; the 128-bit branch
uses the fixed IV with no prepended IV, while the 256-bit branch uses a
random prepended IV (the four-argument `encrypt`/three-argument `decrypt`
overloads default the random-IV flag to true). -/
theorem c6_key_wrapping_parameters (P : CryptoPrimitives)
    (randomIvBytes key k c : List Nat) :
    (key.length = 16 →
      SymmetricCipherFacade.encryptKey P randomIvBytes key k =
        AesCbcFacade.encrypt P key k false FIXED_IV false
          .UnusedReservedUnauthenticated
      ∧ SymmetricCipherFacade.decryptKey P key c =
        SymmetricCipherFacade.decryptWithIvChoice P key c false false)
  ∧ (key.length = 32 →
      SymmetricCipherFacade.encryptKey P randomIvBytes key k =
        AesCbcFacade.encrypt P key k true randomIvBytes false .AesCbcThenHmac
      ∧ SymmetricCipherFacade.decryptKey P key c =
        SymmetricCipherFacade.decryptWithIvChoice P key c true false) := by
  constructor
  · intro h16
    constructor
    · unfold SymmetricCipherFacade.encryptKey SymmetricCipherFacade.encryptWithIvChoice
      simp [getAndVerifyAesKeyLength, h16]
    · unfold SymmetricCipherFacade.decryptKey
      simp [getAndVerifyAesKeyLength, h16]
  · intro h32
    constructor
    · unfold SymmetricCipherFacade.encryptKey SymmetricCipherFacade.encryptDefaultIv
        SymmetricCipherFacade.encryptWithIvChoice
      simp [getAndVerifyAesKeyLength, h32]
    · unfold SymmetricCipherFacade.decryptKey SymmetricCipherFacade.decryptDefaultIv
      simp [getAndVerifyAesKeyLength, h32]

/-- C6 (amended) witness: the parameter selection evaluated for a concrete
256-bit wrapping key. -/
theorem c6_key_wrapping_parameters_witness :
    SymmetricCipherFacade.encryptKey toyPrims (List.replicate 16 1)
        (List.replicate 32 0) (List.replicate 16 5) =
      AesCbcFacade.encrypt toyPrims (List.replicate 32 0) (List.replicate 16 5)
        true (List.replicate 16 1) false .AesCbcThenHmac
    ∧ SymmetricCipherFacade.decryptKey toyPrims (List.replicate 32 0) [1, 2, 3] =
      SymmetricCipherFacade.decryptWithIvChoice toyPrims (List.replicate 32 0)
        [1, 2, 3] true false :=
  (c6_key_wrapping_parameters toyPrims (List.replicate 16 1) (List.replicate 32 0)
    (List.replicate 16 5) [1, 2, 3]).2 (by decide)

/-- C7: when the detected cipher version of the ciphertext is
`UnusedReservedUnauthenticated` (no recognized version byte) and the key is
256-bit, the facade decrypt fails with `AuthenticationRequired`; the
conclusion holds for every primitive bundle, so no decryption of any kind is
attempted and 256-bit keys never decrypt unauthenticated data. -/
theorem c7_reject_unauthenticated_256 (P : CryptoPrimitives) (key c : List Nat)
    (randomIv padding : Bool) (hkey : key.length = 32)
    (hver : SymmetricCipherVersion.getFromCiphertext c =
      .UnusedReservedUnauthenticated) :
    SymmetricCipherFacade.decryptWithIvChoice P key c randomIv padding =
      .error .authenticationRequired := by
  unfold SymmetricCipherFacade.decryptWithIvChoice SymmetricCipherFacade.getCipherVersion
  rw [hver]
  simp [getAndVerifyAesKeyLength, hkey]

/-- C7 witness: a 32-byte key refuses a ciphertext whose leading byte is not
a recognized version value. -/
theorem c7_reject_unauthenticated_256_witness :
    SymmetricCipherFacade.decryptWithIvChoice toyPrims (List.replicate 32 0)
      [0, 9, 9] true true = .error .authenticationRequired :=
  c7_reject_unauthenticated_256 toyPrims (List.replicate 32 0) [0, 9, 9]
    true true (by decide) (by decide)

/-- C8: `deriveSubKeys` with version `UnusedReservedUnauthenticated` fails
for every key that is not 128-bit (32-byte keys hit the incompatibility
check, all other lengths the key-length validation), and for every 128-bit
key it returns the master key itself as the encryption key with no
authentication key. -/
theorem c8_unauthenticated_gating (P : CryptoPrimitives) (key : List Nat) :
    (key.length = 16 →
      SymmetricKeyDeriver.deriveSubKeys P key .UnusedReservedUnauthenticated =
        .ok ⟨key, none⟩)
  ∧ (key.length ≠ 16 →
      (SymmetricKeyDeriver.deriveSubKeys P key
        .UnusedReservedUnauthenticated).isOk = false) := by
  refine ⟨fun h16 => deriveUnused128 P key h16, fun hne => ?_⟩
  by_cases h32 : key.length = 32
  · rw [deriveUnused256 P key h32]
    rfl
  · unfold SymmetricKeyDeriver.deriveSubKeys
    simp [getAndVerifyAesKeyLength, hne, h32, Except.isOk, Except.toBool]

/-- C8 witness: the derivation result for a concrete 128-bit key and the
failure for a concrete 256-bit key. -/
theorem c8_unauthenticated_gating_witness :
    SymmetricKeyDeriver.deriveSubKeys toyPrims (List.replicate 16 3)
        .UnusedReservedUnauthenticated = .ok ⟨List.replicate 16 3, none⟩
    ∧ (SymmetricKeyDeriver.deriveSubKeys toyPrims (List.replicate 32 3)
        .UnusedReservedUnauthenticated).isOk = false :=
  ⟨(c8_unauthenticated_gating toyPrims (List.replicate 16 3)).1 (by decide),
   (c8_unauthenticated_gating toyPrims (List.replicate 32 3)).2 (by decide)⟩

/-- C9 counterexample: AEAD decryption succeeds on an envelope whose leading
byte is `7`, not the `Aead` version tag `2` — the provided tag authenticates
the body, the body is parsed as 1-byte marker, 16-byte IV and remainder, and
the plaintext is returned without any equality check on the version byte.
This refutes the claim that the leading version byte is checked to equal the
`Aead` tag. -/
theorem c9_counterexample :
    AeadFacade.decrypt toyPrims (List.replicate 16 0)
        (([7] ++ List.replicate 16 3 ++ [9, 9]) ++ (List.replicate 31 0 ++ [73]))
        false [] = .ok [9, 9]
  ∧ (7 : Nat) ≠ symmetricCipherVersionValue .Aead := by
  refine ⟨by decide, by decide⟩

/-- C9 (amended): in AEAD decryption, after the trailing 32-byte tag is
verified over the remainder concatenated with the associated data, the
authenticated region is parsed as a 1-byte version position (skipped without
any comparison), a 16-byte IV, and the remaining ciphertext, which is then
CBC-decrypted; no check that the leading byte equals the `Aead` version tag
is performed. -/
theorem c9_parse_without_version_check (P : CryptoPrimitives)
    (key c ad : List Nat) (padding : Bool) (sk : SubKeys) (ak : List Nat)
    (hderive : SymmetricKeyDeriver.deriveSubKeys P key .Aead = .ok sk)
    (hak : sk.authenticationKey = some ak)
    (hlen : 49 ≤ c.length)
    (htag : P.hmacSha256 ak (c.take (c.length - 32) ++ ad) =
      c.drop (c.length - 32)) :
    AeadFacade.decrypt P key c padding ad =
      P.aesCbcDecrypt sk.encryptionKey
        (((c.take (c.length - 32)).drop 1).take 16)
        ((c.take (c.length - 32)).drop 17) padding := by
  have htaglen : (c.drop (c.length - 32)).length = 32 := by
    rw [List.length_drop]
    omega
  have h := aeadDecryptEq P key (c.take (c.length - 32)) (c.drop (c.length - 32))
    ad padding sk ak hderive hak htaglen htag
  rw [List.take_append_drop] at h
  exact h

/-- C9 (amended) witness: the parse evaluated on a concrete envelope whose
leading byte is not the `Aead` tag. -/
theorem c9_parse_without_version_check_witness :
    AeadFacade.decrypt toyPrims (List.replicate 16 0)
        (([7] ++ List.replicate 16 3 ++ [9, 8, 7]) ++ (List.replicate 31 0 ++ [79]))
        false [] =
      toyPrims.aesCbcDecrypt (List.replicate 32 0) (List.replicate 16 3)
        [9, 8, 7] false :=
  c9_parse_without_version_check toyPrims (List.replicate 16 0)
    (([7] ++ List.replicate 16 3 ++ [9, 8, 7]) ++ (List.replicate 31 0 ++ [79]))
    [] false ⟨List.replicate 32 0, some (List.replicate 32 0)⟩
    (List.replicate 32 0) (by decide) rfl (by decide) (by decide)

/-- C10: `aesEncrypt` refuses to produce any ciphertext when called with
`useMac = false` and a 256-bit key — the result is an error for every
plaintext, IV and padding mode, so an unauthenticated envelope can never be
created under a 256-bit key. -/
theorem c10_no_unauthenticated_aes256_encrypt (P : CryptoPrimitives)
    (key bytes iv : List Nat) (usePadding : Bool) (hkey : key.length = 32) :
    (aesEncrypt P key bytes iv usePadding false).isOk = false := by
  unfold aesEncrypt
  simp only [getAndVerifyAesKeyLength, hkey]
  by_cases hiv : iv.length = 16 <;>
    simp [hiv, Except.isOk, Except.toBool]

/-- C10 witness: the refusal evaluated at the all-zero 256-bit key. -/
theorem c10_no_unauthenticated_aes256_encrypt_witness :
    (aesEncrypt toyPrims (List.replicate 32 0) [1, 2] (List.replicate 16 0)
      true false).isOk = false :=
  c10_no_unauthenticated_aes256_encrypt toyPrims (List.replicate 32 0) [1, 2]
    (List.replicate 16 0) true (by decide)
